import Mathlib

/-!
Shallow embedding of the zico3m/news-script repository (src/main.py and
src/rss_ingest.py): an RSS ingestion / classification / persistence
pipeline.  External collaborators (HTTP, the feed parser, the local ML
model, the Supabase store) are modelled as explicit oracle functions or
as explicit state; Python exceptions are modelled with Except, where an
Except.error result is an exception propagating to the caller.
-/

set_option autoImplicit false
set_option maxRecDepth 4000

namespace NewsScript

/-! ### Text normalisation (clean_text, str.strip, str.lower) -/

/-- Whitespace as matched by the regex class backslash-s (ASCII core),
used by clean_text (main.py:94-96, rss_ingest.py:82-84) and str.strip. -/
def isWs (c : Char) : Bool :=
  c == ' ' || c == '\t' || c == '\n' || c == '\r' || c == '\x0b' || c == '\x0c'

/-- One left-to-right pass of the substitution of the regex backslash-s-plus
by a single space: each maximal run of whitespace becomes one space.  The
Boolean flag records whether the previous character was inside a run. -/
def subWsAux : Bool → List Char → List Char
  | _, [] => []
  | prev, c :: cs =>
    if isWs c then
      if prev then subWsAux true cs else ' ' :: subWsAux true cs
    else
      c :: subWsAux false cs

/-- re.sub of any whitespace run by a single space (main.py:95). -/
def subWs (l : List Char) : List Char := subWsAux false l

/-- Remove trailing whitespace: the right half of str.strip. -/
def dropTrailWs : List Char → List Char
  | [] => []
  | c :: cs =>
    match dropTrailWs cs with
    | [] => if isWs c then [] else [c]
    | r => c :: r

/-- str.strip: remove leading and trailing whitespace. -/
def pyStripList (l : List Char) : List Char := dropTrailWs (l.dropWhile isWs)

/-- str.strip on a String. -/
def pyStrip (s : String) : String := String.mk (pyStripList s.data)

/-- str.lower, modelled characterwise. -/
def pyLower (s : String) : String := String.mk (s.data.map Char.toLower)

/-- clean_text (main.py:94-96, rss_ingest.py:82-84): collapse every
whitespace run to a single space, then strip both ends. -/
def cleanList (l : List Char) : List Char := pyStripList (subWs l)

/-- clean_text on Strings. -/
def clean_text (s : String) : String := String.mk (cleanList s.data)

/-! ### Category taxonomy -/

/-- ALLOWED_CATEGORIES (main.py:54-61, rss_ingest.py:39-46), as the
lookup view of the Python dict. -/
def ALLOWED_CATEGORIES (s : String) : Option Nat :=
  if s = "politics" then some 1
  else if s = "sports" then some 2
  else if s = "technology" then some 3
  else if s = "health" then some 4
  else if s = "economy" then some 5
  else if s = "culture" then some 6
  else none

/-- CATEGORY_MAPPING (main.py:63-73, rss_ingest.py:49-61). -/
def CATEGORY_MAPPING (s : String) : Option String :=
  if s = "tech" then some "technology"
  else if s = "technology" then some "technology"
  else if s = "finance" then some "economy"
  else if s = "economics" then some "economy"
  else if s = "economy" then some "economy"
  else if s = "politics" then some "politics"
  else if s = "sports" then some "sports"
  else if s = "health" then some "health"
  else if s = "culture" then some "culture"
  else none

/-- The inline category resolution step of the main loop (main.py:198-205,
rss_ingest.py:164-174): mapped = CATEGORY_MAPPING.get(raw); a truthy
mapped value that is also a key of ALLOWED_CATEGORIES yields its id. -/
def resolve (raw : String) : Option Nat :=
  match CATEGORY_MAPPING raw with
  | none => none
  | some m =>
    if m ≠ "" ∧ (ALLOWED_CATEGORIES m).isSome then ALLOWED_CATEGORIES m else none

/-! ### Startup configuration -/

/-- Fallback store endpoint hard-coded at rss_ingest.py:16. -/
def SUPABASE_URL_DEFAULT : String := "https://nophyetcritlguostfsh.supabase.co"

/-- Fallback store credential hard-coded at rss_ingest.py:20. -/
def SUPABASE_KEY_DEFAULT : String := "sb_publishable_eSz6tnpyIjCOPk9Z_OoCtw_vZieZWm9"

/-- main.py:13-14: os.environ[...] raises KeyError when the variable is
absent, so module import (before any work) aborts. -/
def read_config_main (env : String → Option String) : Except String (String × String) :=
  match env "SUPABASE_URL" with
  | none => Except.error "KeyError: SUPABASE_URL"
  | some u =>
    match env "SUPABASE_KEY" with
    | none => Except.error "KeyError: SUPABASE_KEY"
    | some k => Except.ok (u, k)

/-- rss_ingest.py:14-21: os.getenv with hard-coded fallback values; it
never fails, so startup proceeds even with an empty environment. -/
def read_config_rss (env : String → Option String) : Except String (String × String) :=
  Except.ok ((env "SUPABASE_URL").getD SUPABASE_URL_DEFAULT,
             (env "SUPABASE_KEY").getD SUPABASE_KEY_DEFAULT)

/-! ### Classifier backends -/

/-- MAX_CHARS (main.py:79). -/
def MAX_CHARS : Nat := 2000

/-- main.py:101: short_text = text[:MAX_CHARS], the text the remote
backend is given. -/
def short_text (text : String) : String := String.mk (text.data.take MAX_CHARS)

/-- rss_ingest.py:87: the local backend is given the text unmodified
(vectorizer.transform([text]) receives the full string). -/
def local_submission (text : String) : String := text

/-- JSON body of a successful HF response: the optional prediction and
label string fields read at main.py:112. -/
structure HFResponse where
  prediction : Option String
  label : Option String

/-- Python `a or b` on two optional strings: None and the empty string
are falsy, so they fall through to the second operand. -/
def pyOrStr : Option String → Option String → Option String
  | some a, b => if a = "" then b else some a
  | none, b => b

/-- classify, remote backend (main.py:99-121).  The api oracle stands for
requests.post + raise_for_status + response.json; an Except.error result
is any exception there (timeout, HTTP error status, JSON decode failure).
The whole body sits in a try/except, so every exception becomes the
sentinel "unknown" and the function always returns normally. -/
def classify_remote (api : String → Except String HFResponse) (text : String) :
    Except String String :=
  match api (short_text text) with
  | Except.error _ => Except.ok "unknown"
  | Except.ok data =>
    match pyOrStr data.prediction data.label with
    | none => Except.ok "unknown"
    | some p =>
      if p = "" then Except.ok "unknown" else Except.ok (pyStrip (pyLower p))

/-- classify, local backend (rss_ingest.py:86-88).  The predict oracle
stands for vectorizer.transform followed by model.predict, returning the
prediction array; there is no try/except in this classify, so an oracle
error propagates to the caller, and an empty prediction array raises
IndexError at the subscript [0]. -/
def classify_local (predict : String → Except String (List String)) (text : String) :
    Except String String :=
  match predict (local_submission text) with
  | Except.error e => Except.error e
  | Except.ok [] => Except.error "IndexError"
  | Except.ok (l :: _) => Except.ok (pyStrip (pyLower l))

/-! ### Article fetcher -/

/-- The observable parameters of the one HTTP request the fetcher makes. -/
structure HttpRequest where
  url : String
  userAgent : String
  timeout : Nat
deriving DecidableEq

/-- A parsed HTML page: the text of each p element in document order, and
the meta og:image tag — none: no such tag; some none: a tag without a
content attribute; some (some u): a tag whose content attribute is u. -/
structure HtmlPage where
  paragraphs : List String
  ogImageTag : Option (Option String)

/-- The single user-agent header HEADERS (main.py:75-77,
rss_ingest.py:63-65). -/
def HEADERS_UA : String := "Mozilla/5.0 (NabaAI Bot)"

/-- The request fetch_full_article issues (main.py:154, rss_ingest.py:121):
requests.get(url, headers=HEADERS, timeout=20). -/
def articleRequest (url : String) : HttpRequest :=
  { url := url, userAgent := HEADERS_UA, timeout := 20 }

/-- fetch_full_article (main.py:152-169, rss_ingest.py:119-136).  The http
oracle stands for requests.get + raise_for_status + the BeautifulSoup
parse; an Except.error result is any exception there.  A meta og:image
tag without a content attribute raises KeyError at the subscript
img["content"], still inside the try, so that case also yields
(none, none). -/
def fetch_full_article (http : HttpRequest → Except String HtmlPage) (url : String) :
    Option String × Option String :=
  match http (articleRequest url) with
  | Except.error _ => (none, none)
  | Except.ok page =>
    let content := clean_text (String.intercalate " " page.paragraphs)
    match page.ogImageTag with
    | none => (some content, none)
    | some none => (none, none)
    | some (some u) => (some content, some u)

/-! ### Store and pipeline -/

/-- A row of the news table as the pipeline inserts it (main.py:207-216,
rss_ingest.py:176-185). -/
structure NewsRecord where
  title : String
  content : String
  primary_image : Option String
  category_id : Option Nat
  source_id : Nat
  status : String
  is_external : Bool
  published_at : String
deriving DecidableEq

/-- A row of the sources table (main.py:141-144). -/
structure SourceRecord where
  id : Nat
  name : String
  source_type_id : Nat
deriving DecidableEq

/-- The two Supabase tables the pipeline touches, plus the counter the
store uses to assign fresh source ids on insert. -/
structure Store where
  news : List NewsRecord
  sources : List SourceRecord
  nextSourceId : Nat
deriving DecidableEq

/-- already_exists (main.py:123-129, rss_ingest.py:90-96): select id
where title equals the argument, limit 1; any match at all is a hit. -/
def already_exists (st : Store) (title : String) : Bool :=
  st.news.any (fun r => r.title == title)

/-- get_or_create_source (main.py:131-146, rss_ingest.py:98-113): select
by name limit 1; on a hit return the stored id, on a miss insert a row
with source_type_id 1 and return its freshly assigned id. -/
def get_or_create_source (st : Store) (name : String) : Nat × Store :=
  match st.sources.find? (fun r => r.name == name) with
  | some r => (r.id, st)
  | none =>
    let newId := st.nextSourceId
    (newId,
     { st with
       sources := st.sources ++ [{ id := newId, name := name, source_type_id := 1 }],
       nextSourceId := newId + 1 })

/-- A feed entry as the loop reads it: item.get("title") and
item.get("link") (main.py:184-185), either of which may be absent. -/
structure Entry where
  title : Option String
  link : Option String
deriving DecidableEq

/-- Outcome of one iteration of the per-entry loop: the store afterwards,
the record inserted (if any), and whether classify was invoked. -/
structure ItemResult where
  store : Store
  persisted : Option NewsRecord
  classifierCalled : Bool
deriving DecidableEq

/-- One iteration of the per-entry loop body (main.py:183-219,
rss_ingest.py:150-188), parameterized over the fetch_full_article and
classify collaborators and over the insertion timestamp now_utc().
Python truthiness: `if not title or not link` skips both an absent and an
empty string, and `if not content or len(content) < 300` likewise. -/
def process_item (fetchArticle : String → Option String × Option String)
    (classifier : String → String) (now : String)
    (st : Store) (source_id : Nat) (item : Entry) : ItemResult :=
  match item.title, item.link with
  | some title, some link =>
    if title = "" ∨ link = "" then
      { store := st, persisted := none, classifierCalled := false }
    else if already_exists st title then
      { store := st, persisted := none, classifierCalled := false }
    else
      match fetchArticle link with
      | (none, _) => { store := st, persisted := none, classifierCalled := false }
      | (some content, image_url) =>
        if content = "" ∨ content.length < 300 then
          { store := st, persisted := none, classifierCalled := false }
        else
          let predicted_raw := classifier content
          let sc : String × Option Nat :=
            match resolve predicted_raw with
            | some cid => ("published", some cid)
            | none => ("pending", none)
          let newRecord : NewsRecord :=
            { title := title, content := content, primary_image := image_url,
              category_id := sc.2, source_id := source_id, status := sc.1,
              is_external := true, published_at := now }
          { store := { st with news := st.news ++ [newRecord] },
            persisted := some newRecord, classifierCalled := true }
  | _, _ => { store := st, persisted := none, classifierCalled := false }

/-- The per-feed part of main (main.py:178-219): resolve the source id,
then run the loop body over the first 15 entries, counting inserts. -/
def process_feed (fetchArticle : String → Option String × Option String)
    (classifier : String → String) (now : String)
    (st : Store) (source_name : String) (entries : List Entry) : Store × Nat :=
  let p := get_or_create_source st source_name
  (entries.take 15).foldl
    (fun acc item =>
      let r := process_item fetchArticle classifier now acc.1 p.1 item
      (r.store, acc.2 + (if r.persisted.isSome then 1 else 0)))
    (p.2, 0)

/-- main (main.py:175-221, rss_ingest.py:142-190): every configured feed
in turn, accumulating the total count of added records.  The feed parser
is external, so a run is a function of the entry lists it yields. -/
def runPipeline (fetchArticle : String → Option String × Option String)
    (classifier : String → String) (now : String)
    (st : Store) (feeds : List (String × List Entry)) : Store × Nat :=
  feeds.foldl
    (fun acc feed =>
      let q := process_feed fetchArticle classifier now acc.1 feed.1 feed.2
      (q.1, acc.2 + q.2))
    (st, 0)

/-- The taxonomy invariant of §3 of the spec, for one news row. -/
def StatusInv (r : NewsRecord) : Prop :=
  (r.status = "published" ↔ r.category_id.isSome = true) ∧
  (r.status = "published" ∨ r.status = "pending")

instance (r : NewsRecord) : Decidable (StatusInv r) := by
  unfold StatusInv; infer_instance

/-- A 2001-character text, one character over the MAX_CHARS budget. -/
def longText : String := String.mk (List.replicate 2001 'a')

/-- A 300-character article body, the minimum the pipeline persists. -/
def demoContent : String := String.mk (List.replicate 300 'a')

/-- The record a one-entry run persists when the classifier answers
"tech": resolved to category 3 and published. -/
def demoRecord : NewsRecord :=
  { title := "T", content := demoContent, primary_image := none,
    category_id := some 3, source_id := 0, status := "published",
    is_external := true, published_at := "2026-10-12T00:00:00+00:00" }

/-! ### Properties of the whitespace normaliser -/

/-- No two adjacent whitespace characters anywhere in the list. -/
def noAdjWs : List Char → Bool
  | [] => true
  | [_] => true
  | a :: b :: rest => (!(isWs a && isWs b)) && noAdjWs (b :: rest)

/-- The first character, if any, is not whitespace. -/
def headNotWs : List Char → Bool
  | [] => true
  | c :: _ => !isWs c

/-- The last character, if any, is not whitespace. -/
def noTrailWs (l : List Char) : Bool :=
  match l.getLast? with
  | none => true
  | some c => !isWs c

theorem noAdjWs_of_cons {a : Char} {l : List Char} (h : noAdjWs (a :: l) = true) :
    noAdjWs l = true := by
  cases l with
  | nil => rfl
  | cons b t =>
    simp only [noAdjWs, Bool.and_eq_true] at h
    exact h.2

theorem noAdjWs_cons_of_head {c : Char} {l : List Char}
    (h1 : headNotWs l = true) (h2 : noAdjWs l = true) : noAdjWs (c :: l) = true := by
  cases l with
  | nil => rfl
  | cons b t =>
    have hb : isWs b = false := by simpa [headNotWs] using h1
    simp [noAdjWs, hb, h2]

theorem noAdjWs_cons_of_not_ws {c : Char} {l : List Char}
    (hc : isWs c = false) (h2 : noAdjWs l = true) : noAdjWs (c :: l) = true := by
  cases l with
  | nil => rfl
  | cons b t => simp [noAdjWs, hc, h2]

theorem headNotWs_subWsAux_true : ∀ l : List Char, headNotWs (subWsAux true l) = true := by
  intro l
  induction l with
  | nil => rfl
  | cons c cs ih =>
    cases h : isWs c with
    | true => simpa [subWsAux, h] using ih
    | false => simp [subWsAux, h, headNotWs]

theorem noAdjWs_subWsAux : ∀ (l : List Char) (b : Bool), noAdjWs (subWsAux b l) = true := by
  intro l
  induction l with
  | nil => intro b; rfl
  | cons c cs ih =>
    intro b
    cases h : isWs c with
    | false =>
      have he : subWsAux b (c :: cs) = c :: subWsAux false cs := by simp [subWsAux, h]
      rw [he]
      exact noAdjWs_cons_of_not_ws h (ih false)
    | true =>
      cases b with
      | true => simpa [subWsAux, h] using ih true
      | false =>
        have he : subWsAux false (c :: cs) = ' ' :: subWsAux true cs := by
          simp [subWsAux, h]
        rw [he]
        exact noAdjWs_cons_of_head (headNotWs_subWsAux_true cs) (ih true)

theorem mem_subWsAux_ws {c : Char} : ∀ (l : List Char) (b : Bool),
    c ∈ subWsAux b l → isWs c = true → c = ' ' := by
  intro l
  induction l with
  | nil => intro b h _; simp [subWsAux] at h
  | cons a as ih =>
    intro b h hws
    cases ha : isWs a with
    | true =>
      cases b with
      | true =>
        rw [show subWsAux true (a :: as) = subWsAux true as by simp [subWsAux, ha]] at h
        exact ih true h hws
      | false =>
        rw [show subWsAux false (a :: as) = ' ' :: subWsAux true as by
              simp [subWsAux, ha]] at h
        rcases List.mem_cons.mp h with h1 | h2
        · exact h1
        · exact ih true h2 hws
    | false =>
      rw [show subWsAux b (a :: as) = a :: subWsAux false as by simp [subWsAux, ha]] at h
      rcases List.mem_cons.mp h with h1 | h2
      · subst h1; rw [hws] at ha; cases ha
      · exact ih false h2 hws

theorem subWsAux_true_eq_false {l : List Char} (h : headNotWs l = true) :
    subWsAux true l = subWsAux false l := by
  cases l with
  | nil => rfl
  | cons c cs =>
    have hc : isWs c = false := by simpa [headNotWs] using h
    simp [subWsAux, hc]

theorem subWsAux_false_fix : ∀ l : List Char,
    (∀ c ∈ l, isWs c = true → c = ' ') → noAdjWs l = true → subWsAux false l = l := by
  intro l
  induction l with
  | nil => intro _ _; rfl
  | cons c cs ih =>
    intro hmem hadj
    cases hc : isWs c with
    | true =>
      have hcs : headNotWs cs = true := by
        cases cs with
        | nil => rfl
        | cons b t =>
          simp only [noAdjWs, Bool.and_eq_true] at hadj
          have hb : isWs b = false := by simpa [hc] using hadj.1
          simpa [headNotWs] using hb
      have he : subWsAux false (c :: cs) = ' ' :: subWsAux true cs := by
        simp [subWsAux, hc]
      rw [he, subWsAux_true_eq_false hcs,
          ih (fun x hx => hmem x (List.mem_cons_of_mem c hx)) (noAdjWs_of_cons hadj),
          hmem c (List.mem_cons_self c cs) hc]
    | false =>
      have he : subWsAux false (c :: cs) = c :: subWsAux false cs := by
        simp [subWsAux, hc]
      rw [he, ih (fun x hx => hmem x (List.mem_cons_of_mem c hx)) (noAdjWs_of_cons hadj)]

theorem headNotWs_dropWhile : ∀ l : List Char, headNotWs (l.dropWhile isWs) = true := by
  intro l
  induction l with
  | nil => rfl
  | cons c cs ih =>
    cases hc : isWs c with
    | true => simpa [List.dropWhile_cons, hc] using ih
    | false => simp [List.dropWhile_cons, hc, headNotWs]

theorem noAdjWs_dropWhile : ∀ l : List Char, noAdjWs l = true →
    noAdjWs (l.dropWhile isWs) = true := by
  intro l
  induction l with
  | nil => intro h; exact h
  | cons c cs ih =>
    intro h
    cases hc : isWs c with
    | true =>
      rw [List.dropWhile_cons, if_pos hc]
      exact ih (noAdjWs_of_cons h)
    | false =>
      rw [List.dropWhile_cons, if_neg (by simp [hc])]
      exact h

theorem mem_dropWhile {c : Char} : ∀ l : List Char, c ∈ l.dropWhile isWs → c ∈ l := by
  intro l
  induction l with
  | nil => intro h; exact h
  | cons a as ih =>
    intro h
    cases ha : isWs a with
    | true =>
      rw [List.dropWhile_cons, if_pos ha] at h
      exact List.mem_cons_of_mem a (ih h)
    | false =>
      rw [List.dropWhile_cons, if_neg (by simp [ha])] at h
      exact h

theorem dropWhile_fix {l : List Char} (h : headNotWs l = true) :
    l.dropWhile isWs = l := by
  cases l with
  | nil => rfl
  | cons c cs =>
    have hc : isWs c = false := by simpa [headNotWs] using h
    rw [List.dropWhile_cons, if_neg (by simp [hc])]

theorem dropTrailWs_cons_nil {c : Char} {cs : List Char} (h : dropTrailWs cs = []) :
    dropTrailWs (c :: cs) = if isWs c then [] else [c] := by
  unfold dropTrailWs
  rw [h]

theorem dropTrailWs_cons_cons {c x : Char} {cs xs : List Char}
    (h : dropTrailWs cs = x :: xs) : dropTrailWs (c :: cs) = c :: x :: xs := by
  unfold dropTrailWs
  rw [h]

theorem dropTrailWs_head {l : List Char} {x : Char} {xs : List Char}
    (h : dropTrailWs l = x :: xs) : ∃ t, l = x :: t := by
  cases l with
  | nil => simp [dropTrailWs] at h
  | cons c cs =>
    refine ⟨cs, ?_⟩
    rcases hcs : dropTrailWs cs with _ | ⟨y, ys⟩
    · rw [dropTrailWs_cons_nil hcs] at h
      cases hc : isWs c with
      | true => rw [hc] at h; simp at h
      | false =>
        rw [hc] at h
        simp at h
        rw [h.1]
    · rw [dropTrailWs_cons_cons hcs] at h
      injection h with h1 _
      rw [h1]

theorem dropTrailWs_nil : dropTrailWs [] = [] := rfl

theorem headNotWs_dropTrailWs {l : List Char} (h : headNotWs l = true) :
    headNotWs (dropTrailWs l) = true := by
  cases l with
  | nil => rfl
  | cons c cs =>
    rcases hcs : dropTrailWs cs with _ | ⟨x, xs⟩
    · rw [dropTrailWs_cons_nil hcs]
      cases hc : isWs c with
      | true => simp [headNotWs]
      | false =>
        have hc2 : isWs c = false := hc
        simp [headNotWs, hc2]
    · rw [dropTrailWs_cons_cons hcs]; exact h

theorem mem_dropTrailWs {c : Char} : ∀ l : List Char, c ∈ dropTrailWs l → c ∈ l := by
  intro l
  induction l with
  | nil => intro h; exact h
  | cons a as ih =>
    intro h
    rcases has : dropTrailWs as with _ | ⟨x, xs⟩
    · rw [dropTrailWs_cons_nil has] at h
      simp at h
      rw [h.2]
      exact List.mem_cons_self a as
    · rw [dropTrailWs_cons_cons has] at h
      rcases List.mem_cons.mp h with h1 | h1
      · rw [h1]; exact List.mem_cons_self a as
      · exact List.mem_cons_of_mem a (ih (by rw [has]; exact h1))

theorem noAdjWs_dropTrailWs : ∀ l : List Char, noAdjWs l = true →
    noAdjWs (dropTrailWs l) = true := by
  intro l
  induction l with
  | nil => intro _; rfl
  | cons c cs ih =>
    intro h
    rcases hcs : dropTrailWs cs with _ | ⟨x, xs⟩
    · rw [dropTrailWs_cons_nil hcs]
      cases hc : isWs c with
      | true => simp [noAdjWs]
      | false => simp [noAdjWs]
    · obtain ⟨t, ht⟩ := dropTrailWs_head hcs
      subst ht
      rw [dropTrailWs_cons_cons hcs]
      have h1 : noAdjWs (x :: xs) = true := by
        have h2 := ih (noAdjWs_of_cons h)
        rwa [hcs] at h2
      have hpair : (!(isWs c && isWs x)) = true := by
        simp only [noAdjWs, Bool.and_eq_true] at h
        exact h.1
      simp only [noAdjWs, Bool.and_eq_true]
      exact ⟨hpair, h1⟩

theorem noTrailWs_dropTrailWs : ∀ l : List Char, noTrailWs (dropTrailWs l) = true := by
  intro l
  induction l with
  | nil => rfl
  | cons c cs ih =>
    rcases hcs : dropTrailWs cs with _ | ⟨x, xs⟩
    · rw [dropTrailWs_cons_nil hcs]
      cases hc : isWs c with
      | true => simp [noTrailWs]
      | false =>
        have hc2 : isWs c = false := hc
        simp [noTrailWs, hc2]
    · rw [dropTrailWs_cons_cons hcs]
      have he : noTrailWs (c :: x :: xs) = noTrailWs (x :: xs) := by
        simp [noTrailWs, List.getLast?_cons_cons]
      rw [he, ← hcs]
      exact ih

theorem dropTrailWs_fix : ∀ l : List Char, noTrailWs l = true → dropTrailWs l = l := by
  intro l
  induction l with
  | nil => intro _; rfl
  | cons c cs ih =>
    intro h
    cases cs with
    | nil =>
      have hc : isWs c = false := by simpa [noTrailWs] using h
      rw [dropTrailWs_cons_nil dropTrailWs_nil]
      simp [hc]
    | cons d ds =>
      have h2 : noTrailWs (d :: ds) = true := by
        simpa [noTrailWs, List.getLast?_cons_cons] using h
      exact dropTrailWs_cons_cons (ih h2)

theorem cleanList_ws_space {c : Char} {l : List Char}
    (h : c ∈ cleanList l) (hws : isWs c = true) : c = ' ' := by
  simp only [cleanList, pyStripList, subWs] at h
  exact mem_subWsAux_ws l false (mem_dropWhile _ (mem_dropTrailWs _ h)) hws

theorem cleanList_noAdj (l : List Char) : noAdjWs (cleanList l) = true :=
  noAdjWs_dropTrailWs _ (noAdjWs_dropWhile _ (noAdjWs_subWsAux l false))

theorem cleanList_head (l : List Char) : headNotWs (cleanList l) = true :=
  headNotWs_dropTrailWs (headNotWs_dropWhile (subWs l))

theorem cleanList_trail (l : List Char) : noTrailWs (cleanList l) = true :=
  noTrailWs_dropTrailWs _

theorem cleanList_fix_of {l : List Char}
    (hm : ∀ c ∈ l, isWs c = true → c = ' ')
    (ha : noAdjWs l = true) (hh : headNotWs l = true) (ht : noTrailWs l = true) :
    cleanList l = l := by
  unfold cleanList pyStripList subWs
  rw [subWsAux_false_fix l hm ha, dropWhile_fix hh, dropTrailWs_fix l ht]

theorem cleanList_idem (l : List Char) : cleanList (cleanList l) = cleanList l :=
  cleanList_fix_of (fun _ hc hw => cleanList_ws_space hc hw) (cleanList_noAdj l)
    (cleanList_head l) (cleanList_trail l)

/-! ### Claim C10 -/

/-- C10: clean_text is idempotent, and its output contains no two
adjacent whitespace characters and no leading or trailing whitespace. -/
theorem clean_text_idem_normal (s : String) :
    clean_text (clean_text s) = clean_text s ∧
    noAdjWs (clean_text s).data = true ∧
    headNotWs (clean_text s).data = true ∧
    noTrailWs (clean_text s).data = true :=
  ⟨congrArg String.mk (cleanList_idem s.data), cleanList_noAdj s.data,
   cleanList_head s.data, cleanList_trail s.data⟩

/-! ### Claim C7 -/

/-- C7: the category resolver is total by construction, returns a
concrete id only when the raw label hits CATEGORY_MAPPING and the mapped
name is additionally a key of ALLOWED_CATEGORIES, yields none for a label
absent from the synonym table, and every emitted id lies inside the
closed taxonomy (ids 1 to 6). -/
theorem resolve_sound (raw : String) :
    (∀ cid : Nat, resolve raw = some cid →
      ∃ m, CATEGORY_MAPPING raw = some m ∧ ALLOWED_CATEGORIES m = some cid ∧
        1 ≤ cid ∧ cid ≤ 6) ∧
    (CATEGORY_MAPPING raw = none → resolve raw = none) := by
  constructor
  · intro cid h
    rcases hm : CATEGORY_MAPPING raw with _ | m
    · have he : resolve raw = none := by unfold resolve; rw [hm]
      rw [he] at h; cases h
    · have he : resolve raw =
          if m ≠ "" ∧ (ALLOWED_CATEGORIES m).isSome then ALLOWED_CATEGORIES m
          else none := by
        unfold resolve; rw [hm]
      rw [he] at h
      by_cases hcond : m ≠ "" ∧ (ALLOWED_CATEGORIES m).isSome
      · rw [if_pos hcond] at h
        refine ⟨m, rfl, h, ?_⟩
        unfold ALLOWED_CATEGORIES at h
        split_ifs at h <;> simp_all <;> omega
      · rw [if_neg hcond] at h; cases h
  · intro h
    unfold resolve
    rw [h]

/-- C7 witness: the raw label "tech" resolves to id 3 through the synonym
table entry "technology". -/
theorem resolve_sound_witness :
    resolve "tech" = some 3 ∧
    ∃ m, CATEGORY_MAPPING "tech" = some m ∧ ALLOWED_CATEGORIES m = some 3 ∧
      1 ≤ 3 ∧ 3 ≤ 6 :=
  ⟨by decide, (resolve_sound "tech").1 3 (by decide)⟩

/-! ### Claim C3 -/

/-- C3 counterexample: with every environment variable absent, the
rss_ingest.py variant starts anyway, falling back to its hard-coded
endpoint and credential, so absence of the configuration is not fatal in
both variants. -/
theorem read_config_rss_empty_env :
    read_config_rss (fun _ => none) =
      Except.ok (SUPABASE_URL_DEFAULT, SUPABASE_KEY_DEFAULT) := rfl

/-- C3 amended: a missing store endpoint or credential aborts the main.py
variant before any work (KeyError at module import), while the
rss_ingest.py variant always starts, substituting hard-coded defaults. -/
theorem read_config_variants (env : String → Option String) :
    ((env "SUPABASE_URL" = none ∨ env "SUPABASE_KEY" = none) →
      ∃ e, read_config_main env = Except.error e) ∧
    (∃ cfg, read_config_rss env = Except.ok cfg) := by
  constructor
  · intro h
    unfold read_config_main
    rcases hu : env "SUPABASE_URL" with _ | u
    · exact ⟨"KeyError: SUPABASE_URL", rfl⟩
    · rcases hk : env "SUPABASE_KEY" with _ | k
      · exact ⟨"KeyError: SUPABASE_KEY", rfl⟩
      · rcases h with h | h
        · rw [hu] at h; cases h
        · rw [hk] at h; cases h
  · exact ⟨_, rfl⟩

/-- C3 witness: at the empty environment the main.py variant aborts and
the rss_ingest.py variant starts. -/
theorem read_config_variants_witness :
    (∃ e, read_config_main (fun _ => none) = Except.error e) ∧
    (∃ cfg, read_config_rss (fun _ => none) = Except.ok cfg) :=
  ⟨(read_config_variants (fun _ => none)).1 (Or.inl rfl),
   (read_config_variants (fun _ => none)).2⟩

/-! ### Claim C2 -/

/-- C2 counterexample: the local-model classify of rss_ingest.py has no
exception handling, so a model failure propagates to the caller instead
of producing the sentinel "unknown". -/
theorem classify_local_raises :
    classify_local (fun _ => Except.error "model failure") "x" =
      Except.error "model failure" := rfl

/-- C2 amended: the remote-backend classify never raises — any exception
or an absent or falsy label field yields the sentinel "unknown", and a
usable label is returned lowercased and trimmed — while the local-model
classify has no failure containment: a backend error propagates
unchanged, and only on success is the label lowercased and trimmed. -/
theorem classify_backends (api : String → Except String HFResponse)
    (predict : String → Except String (List String)) (text : String) :
    (∃ s, classify_remote api text = Except.ok s) ∧
    (∀ e, api (short_text text) = Except.error e →
      classify_remote api text = Except.ok "unknown") ∧
    (∀ data, api (short_text text) = Except.ok data →
      pyOrStr data.prediction data.label = none →
      classify_remote api text = Except.ok "unknown") ∧
    (∀ data p, api (short_text text) = Except.ok data →
      pyOrStr data.prediction data.label = some p → p ≠ "" →
      classify_remote api text = Except.ok (pyStrip (pyLower p))) ∧
    (∀ e, predict (local_submission text) = Except.error e →
      classify_local predict text = Except.error e) ∧
    (∀ l rest, predict (local_submission text) = Except.ok (l :: rest) →
      classify_local predict text = Except.ok (pyStrip (pyLower l))) := by
  refine ⟨?_, ?_, ?_, ?_, ?_, ?_⟩
  · rcases h : api (short_text text) with e | data
    · exact ⟨"unknown", by simp [classify_remote, h]⟩
    · rcases hor : pyOrStr data.prediction data.label with _ | p
      · exact ⟨"unknown", by simp [classify_remote, h, hor]⟩
      · by_cases hp : p = ""
        · exact ⟨"unknown", by simp [classify_remote, h, hor, hp]⟩
        · exact ⟨pyStrip (pyLower p), by simp [classify_remote, h, hor, hp]⟩
  · intro e h; simp [classify_remote, h]
  · intro data h hor; simp [classify_remote, h, hor]
  · intro data p h hor hp; simp [classify_remote, h, hor, hp]
  · intro e h; unfold classify_local; rw [h]
  · intro l rest h; unfold classify_local; rw [h]

/-- C2 witness: a remote call that times out yields the sentinel, and a
failing local model propagates its error. -/
theorem classify_backends_witness :
    classify_remote (fun _ => Except.error "timed out") "hello" =
      Except.ok "unknown" ∧
    classify_local (fun _ => Except.error "bad pickle") "hello" =
      Except.error "bad pickle" :=
  ⟨(classify_backends (fun _ => Except.error "timed out")
      (fun _ => Except.error "bad pickle") "hello").2.1 "timed out" rfl,
   (classify_backends (fun _ => Except.error "timed out")
      (fun _ => Except.error "bad pickle") "hello").2.2.2.2.1 "bad pickle" rfl⟩

/-! ### Claim C4 -/

theorem longText_length : longText.length = 2001 := by
  show (List.replicate 2001 'a').length = 2001
  rw [List.length_replicate]

/-- C4 counterexample: the local-model classify submits its full input to
the backend — on the 2001-character longText the backend observes more
than 2000 characters, so the 2000-character truncation does not happen on
both backends. -/
theorem classify_local_no_truncation :
    classify_local
      (fun s => if 2000 < s.length then Except.ok ["long"] else Except.ok ["short"])
      longText = Except.ok "long" := by
  have hlen : 2000 < longText.length := by rw [longText_length]; omega
  simp only [classify_local, local_submission, if_pos hlen]
  rfl

/-- C4 amended: the remote backend is given short_text, the at most
2000-character truncation of the input, and its result depends on the api
only at that truncated submission; the local backend is given the full
input with no truncation. -/
theorem truncation_per_backend (text : String) :
    (short_text text).length ≤ MAX_CHARS ∧
    local_submission text = text ∧
    (∀ api1 api2 : String → Except String HFResponse,
      api1 (short_text text) = api2 (short_text text) →
      classify_remote api1 text = classify_remote api2 text) := by
  refine ⟨?_, rfl, ?_⟩
  · show (text.data.take MAX_CHARS).length ≤ MAX_CHARS
    rw [List.length_take]
    exact min_le_left _ _
  · intro api1 api2 h
    unfold classify_remote
    rw [h]

theorem short_text_longText_length : (short_text longText).length = 2000 := by
  show (longText.data.take MAX_CHARS).length = 2000
  have hd : longText.data = List.replicate 2001 'a' := rfl
  rw [hd, List.length_take, List.length_replicate]
  rfl

/-- C4 witness: two remote apis that agree on the 2000-character
truncation of longText produce the same classification, one of them
looking only at the submission length. -/
theorem truncation_per_backend_witness :
    classify_remote
        (fun s => if s.length = 2000 then Except.error "t" else Except.ok ⟨some "x", none⟩)
        longText =
      classify_remote (fun _ => Except.error "t") longText :=
  (truncation_per_backend longText).2.2
    (fun s => if s.length = 2000 then Except.error "t" else Except.ok ⟨some "x", none⟩)
    (fun _ => Except.error "t") (by simp [short_text_longText_length])

/-! ### Claim C5 -/

/-- C5: already_exists is exact select-by-equality on the title (a hit is
one or more stored records with that very string), and a candidate whose
title equals a stored title is never persisted: the loop body leaves the
store untouched. -/
theorem dedupe_by_exact_title
    (fetchArticle : String → Option String × Option String)
    (classifier : String → String) (now : String)
    (st : Store) (source_id : Nat) (item : Entry) (t : String) :
    (already_exists st t = true ↔ ∃ r ∈ st.news, r.title = t) ∧
    (item.title = some t → already_exists st t = true →
      (process_item fetchArticle classifier now st source_id item).persisted = none ∧
      (process_item fetchArticle classifier now st source_id item).store = st) := by
  constructor
  · unfold already_exists
    rw [List.any_eq_true]
    constructor
    · rintro ⟨r, hr, hb⟩; exact ⟨r, hr, by simpa using hb⟩
    · rintro ⟨r, hr, hb⟩; exact ⟨r, hr, by simpa using hb⟩
  · intro ht hex
    obtain ⟨topt, lopt⟩ := item
    have ht2 : topt = some t := ht
    subst ht2
    cases lopt with
    | none => exact ⟨rfl, rfl⟩
    | some l =>
      by_cases h0 : t = "" ∨ l = ""
      · constructor <;> simp [process_item, h0]
      · constructor <;> simp [process_item, h0, hex]

/-- C5 witness: a candidate titled "X" against a store already holding a
record titled "X" is skipped and the store is unchanged. -/
theorem dedupe_by_exact_title_witness :
    (process_item (fun _ => (some demoContent, none)) (fun _ => "tech") "now"
        { news := [{ title := "X", content := "c", primary_image := none,
                     category_id := none, source_id := 1, status := "pending",
                     is_external := true, published_at := "t" }],
          sources := [], nextSourceId := 2 } 1
        { title := some "X", link := some "L" }).persisted = none ∧
    (process_item (fun _ => (some demoContent, none)) (fun _ => "tech") "now"
        { news := [{ title := "X", content := "c", primary_image := none,
                     category_id := none, source_id := 1, status := "pending",
                     is_external := true, published_at := "t" }],
          sources := [], nextSourceId := 2 } 1
        { title := some "X", link := some "L" }).store =
      { news := [{ title := "X", content := "c", primary_image := none,
                   category_id := none, source_id := 1, status := "pending",
                   is_external := true, published_at := "t" }],
        sources := [], nextSourceId := 2 } :=
  (dedupe_by_exact_title _ _ _ _ 1 _ "X").2 rfl (by decide)

/-! ### Claim C6 -/

/-- C6: whenever the fetched content for the item link is absent or
shorter than 300 characters, the loop body persists nothing, leaves the
store unchanged, and never invokes the classifier. -/
theorem thin_content_skipped
    (fetchArticle : String → Option String × Option String)
    (classifier : String → String) (now : String)
    (st : Store) (source_id : Nat) (item : Entry) (l : String)
    (hl : item.link = some l)
    (hthin : ∀ c, (fetchArticle l).1 = some c → c.length < 300) :
    (process_item fetchArticle classifier now st source_id item).persisted = none ∧
    (process_item fetchArticle classifier now st source_id item).classifierCalled
      = false ∧
    (process_item fetchArticle classifier now st source_id item).store = st := by
  obtain ⟨topt, lopt⟩ := item
  have hl2 : lopt = some l := hl
  subst hl2
  cases topt with
  | none => exact ⟨rfl, rfl, rfl⟩
  | some t =>
    by_cases h0 : t = "" ∨ l = ""
    · refine ⟨?_, ?_, ?_⟩ <;> simp [process_item, h0]
    · by_cases hex : already_exists st t = true
      · refine ⟨?_, ?_, ?_⟩ <;> simp [process_item, h0, hex]
      · rcases hf : fetchArticle l with ⟨copt, img⟩
        rcases copt with _ | c
        · refine ⟨?_, ?_, ?_⟩ <;> simp [process_item, h0, hex, hf]
        · have hlen : c.length < 300 := hthin c (by rw [hf])
          have hcond : c = "" ∨ c.length < 300 := Or.inr hlen
          refine ⟨?_, ?_, ?_⟩ <;> simp [process_item, h0, hex, hf, hcond]

/-- C6 witness: a 5-character article body is skipped with no persistence
and no classifier call. -/
theorem thin_content_skipped_witness :
    (process_item (fun _ => (some "short", none)) (fun _ => "politics") "now"
        { news := [], sources := [], nextSourceId := 0 } 7
        { title := some "T", link := some "L" }).persisted = none ∧
    (process_item (fun _ => (some "short", none)) (fun _ => "politics") "now"
        { news := [], sources := [], nextSourceId := 0 } 7
        { title := some "T", link := some "L" }).classifierCalled = false ∧
    (process_item (fun _ => (some "short", none)) (fun _ => "politics") "now"
        { news := [], sources := [], nextSourceId := 0 } 7
        { title := some "T", link := some "L" }).store =
      { news := [], sources := [], nextSourceId := 0 } :=
  thin_content_skipped _ _ _ _ 7 _ "L" rfl
    (fun c hc => by injection hc with h; subst h; decide)

/-! ### Claim C9 -/

/-- C9: get_or_create_source on a fresh name inserts exactly one row with
the default source_type_id 1 and returns the store-assigned id, which is
new; a second sequential call with the same name is a lookup hit
returning the same id without touching the store. -/
theorem get_or_create_source_idempotent (st : Store) (name : String)
    (hmiss : ∀ r ∈ st.sources, r.name ≠ name)
    (hfresh : ∀ r ∈ st.sources, r.id < st.nextSourceId) :
    (get_or_create_source st name).2.sources =
      st.sources ++ [{ id := (get_or_create_source st name).1, name := name,
                       source_type_id := 1 }] ∧
    (get_or_create_source st name).1 = st.nextSourceId ∧
    (∀ r ∈ st.sources, r.id ≠ (get_or_create_source st name).1) ∧
    get_or_create_source (get_or_create_source st name).2 name =
      ((get_or_create_source st name).1, (get_or_create_source st name).2) := by
  have hfind : st.sources.find? (fun r => r.name == name) = none := by
    rw [List.find?_eq_none]
    intro r hr
    simp [hmiss r hr]
  have h1 : get_or_create_source st name =
      (st.nextSourceId,
       { st with
         sources := st.sources ++ [{ id := st.nextSourceId, name := name,
                                     source_type_id := 1 }],
         nextSourceId := st.nextSourceId + 1 }) := by
    unfold get_or_create_source
    rw [hfind]
  rw [h1]
  refine ⟨rfl, rfl, ?_, ?_⟩
  · intro r hr
    exact Nat.ne_of_lt (hfresh r hr)
  · unfold get_or_create_source
    rw [List.find?_append, hfind]
    simp

/-- C9 witness: on an empty store, "BBC Arabic" is created with the next
id 5, and the second call is a hit returning the same pair. -/
theorem get_or_create_source_idempotent_witness :
    (get_or_create_source { news := [], sources := [], nextSourceId := 5 }
        "BBC Arabic").1 = 5 ∧
    get_or_create_source
        (get_or_create_source { news := [], sources := [], nextSourceId := 5 }
          "BBC Arabic").2 "BBC Arabic" =
      ((get_or_create_source { news := [], sources := [], nextSourceId := 5 }
          "BBC Arabic").1,
       (get_or_create_source { news := [], sources := [], nextSourceId := 5 }
          "BBC Arabic").2) :=
  ⟨(get_or_create_source_idempotent _ "BBC Arabic" (fun r hr => by simp at hr)
      (fun r hr => by simp at hr)).2.1,
   (get_or_create_source_idempotent _ "BBC Arabic" (fun r hr => by simp at hr)
      (fun r hr => by simp at hr)).2.2.2⟩

/-! ### Claim C8 -/

/-- C8: fetch_full_article is a total function (it never raises), always
issues the single GET carrying the fixed user-agent header and the
20-unit timeout, yields (none, none) on any failure of that call or of
the og:image attribute access, and on success returns the
whitespace-normalised concatenation of the paragraph texts plus the
og:image content if present; the returned content has collapsed internal
whitespace and no leading or trailing whitespace. -/
theorem fetch_full_article_spec (http : HttpRequest → Except String HtmlPage)
    (url : String) :
    ((articleRequest url).userAgent = "Mozilla/5.0 (NabaAI Bot)" ∧
     (articleRequest url).timeout = 20) ∧
    (∀ e, http (articleRequest url) = Except.error e →
      fetch_full_article http url = (none, none)) ∧
    (∀ page, http (articleRequest url) = Except.ok page →
      (page.ogImageTag = some none → fetch_full_article http url = (none, none)) ∧
      (page.ogImageTag = none →
        fetch_full_article http url =
          (some (clean_text (String.intercalate " " page.paragraphs)), none)) ∧
      (∀ u, page.ogImageTag = some (some u) →
        fetch_full_article http url =
          (some (clean_text (String.intercalate " " page.paragraphs)), some u))) ∧
    (∀ c img, fetch_full_article http url = (some c, img) →
      noAdjWs c.data = true ∧ headNotWs c.data = true ∧ noTrailWs c.data = true) := by
  refine ⟨⟨rfl, rfl⟩, ?_, ?_, ?_⟩
  · intro e h
    unfold fetch_full_article
    rw [h]
  · intro page h
    obtain ⟨paras, itag⟩ := page
    refine ⟨?_, ?_, ?_⟩
    · intro himg
      have h2 : itag = some none := himg
      subst h2
      unfold fetch_full_article
      rw [h]
    · intro himg
      have h2 : itag = none := himg
      subst h2
      unfold fetch_full_article
      rw [h]
    · intro u himg
      have h2 : itag = some (some u) := himg
      subst h2
      unfold fetch_full_article
      rw [h]
  · intro c img h
    rcases hh : http (articleRequest url) with e | page
    · have heq : fetch_full_article http url = (none, none) := by
        unfold fetch_full_article; rw [hh]
      rw [heq] at h
      injection h with h1 _
      cases h1
    · obtain ⟨paras, itag⟩ := page
      rcases itag with _ | u2
      · have heq : fetch_full_article http url =
            (some (clean_text (String.intercalate " " paras)), none) := by
          unfold fetch_full_article; rw [hh]
        rw [heq] at h
        injection h with h1 _
        injection h1 with h3
        rw [← h3]
        exact ⟨cleanList_noAdj _, cleanList_head _, cleanList_trail _⟩
      · rcases u2 with _ | u3
        · have heq : fetch_full_article http url = (none, none) := by
            unfold fetch_full_article; rw [hh]
          rw [heq] at h
          injection h with h1 _
          cases h1
        · have heq : fetch_full_article http url =
              (some (clean_text (String.intercalate " " paras)), some u3) := by
            unfold fetch_full_article; rw [hh]
          rw [heq] at h
          injection h with h1 _
          injection h1 with h3
          rw [← h3]
          exact ⟨cleanList_noAdj _, cleanList_head _, cleanList_trail _⟩

/-- C8 witness: a refused connection yields (none, none). -/
theorem fetch_full_article_spec_witness :
    fetch_full_article (fun _ => Except.error "connection refused") "http://x" =
      (none, none) :=
  (fetch_full_article_spec (fun _ => Except.error "connection refused")
    "http://x").2.1 "connection refused" rfl

/-! ### Claim C1 -/

theorem statusInv_pending (r : NewsRecord) (hs : r.status = "pending")
    (hc : r.category_id = none) : StatusInv r := by
  constructor
  · rw [hs, hc]
    constructor
    · intro h; exact absurd h (by decide)
    · intro h; exact absurd h (by decide)
  · right; exact hs

theorem statusInv_published (r : NewsRecord) {cid : Nat}
    (hs : r.status = "published") (hc : r.category_id = some cid) : StatusInv r := by
  constructor
  · rw [hs, hc]
    exact ⟨fun _ => rfl, fun _ => rfl⟩
  · left; exact hs

/-- The loop body either leaves the news table alone or appends exactly
one record satisfying the taxonomy invariant. -/
theorem process_item_store_news
    (fetchArticle : String → Option String × Option String)
    (classifier : String → String) (now : String)
    (st : Store) (source_id : Nat) (item : Entry) :
    (process_item fetchArticle classifier now st source_id item).store.news
      = st.news ∨
    ∃ r0, StatusInv r0 ∧
      (process_item fetchArticle classifier now st source_id item).store.news
        = st.news ++ [r0] := by
  obtain ⟨topt, lopt⟩ := item
  cases topt with
  | none => exact Or.inl rfl
  | some t =>
    cases lopt with
    | none => exact Or.inl rfl
    | some l =>
      by_cases h0 : t = "" ∨ l = ""
      · left; simp [process_item, h0]
      · by_cases hex : already_exists st t = true
        · left; simp [process_item, h0, hex]
        · rcases hf : fetchArticle l with ⟨copt, img⟩
          rcases copt with _ | content
          · left; simp [process_item, h0, hex, hf]
          · by_cases hthin : content = "" ∨ content.length < 300
            · left; simp [process_item, h0, hex, hf, hthin]
            · right
              rcases hres : resolve (classifier content) with _ | cid
              · refine ⟨{ title := t, content := content, primary_image := img,
                          category_id := none, source_id := source_id,
                          status := "pending", is_external := true,
                          published_at := now }, ?_, ?_⟩
                · exact statusInv_pending _ rfl rfl
                · simp [process_item, h0, hex, hf, hthin, hres]
              · refine ⟨{ title := t, content := content, primary_image := img,
                          category_id := some cid, source_id := source_id,
                          status := "published", is_external := true,
                          published_at := now }, ?_, ?_⟩
                · exact statusInv_published _ rfl rfl
                · simp [process_item, h0, hex, hf, hthin, hres]

theorem process_item_mem_news
    (fetchArticle : String → Option String × Option String)
    (classifier : String → String) (now : String)
    (st : Store) (source_id : Nat) (item : Entry) (r : NewsRecord)
    (h : r ∈ (process_item fetchArticle classifier now st source_id item).store.news) :
    r ∈ st.news ∨ StatusInv r := by
  rcases process_item_store_news fetchArticle classifier now st source_id item with
    heq | ⟨r0, hinv, heq⟩
  · rw [heq] at h; exact Or.inl h
  · rw [heq] at h
    rcases List.mem_append.mp h with h1 | h1
    · exact Or.inl h1
    · right
      rw [List.mem_singleton.mp h1]
      exact hinv

theorem get_or_create_source_news (st : Store) (name : String) :
    (get_or_create_source st name).2.news = st.news := by
  rcases hf : st.sources.find? (fun r => r.name == name) with _ | r <;>
    simp [get_or_create_source, hf]

theorem process_feed_fold_mem
    (fetchArticle : String → Option String × Option String)
    (classifier : String → String) (now : String) (sid : Nat) :
    ∀ (es : List Entry) (acc : Store × Nat) (r : NewsRecord),
      r ∈ ((es.foldl
          (fun acc item =>
            let q := process_item fetchArticle classifier now acc.1 sid item
            (q.store, acc.2 + (if q.persisted.isSome then 1 else 0))) acc).1).news →
      r ∈ acc.1.news ∨ StatusInv r := by
  intro es
  induction es with
  | nil => intro acc r h; exact Or.inl h
  | cons e es ih =>
    intro acc r h
    rw [List.foldl_cons] at h
    rcases ih _ r h with h1 | h1
    · exact process_item_mem_news fetchArticle classifier now acc.1 sid e r h1
    · exact Or.inr h1

theorem process_feed_mem_news
    (fetchArticle : String → Option String × Option String)
    (classifier : String → String) (now : String)
    (st : Store) (name : String) (entries : List Entry) (r : NewsRecord)
    (h : r ∈ (process_feed fetchArticle classifier now st name entries).1.news) :
    r ∈ st.news ∨ StatusInv r := by
  unfold process_feed at h
  rcases process_feed_fold_mem fetchArticle classifier now
      (get_or_create_source st name).1 (entries.take 15)
      ((get_or_create_source st name).2, 0) r h with h1 | h1
  · left
    rw [← get_or_create_source_news st name]
    exact h1
  · exact Or.inr h1

theorem runPipeline_fold_mem
    (fetchArticle : String → Option String × Option String)
    (classifier : String → String) (now : String) :
    ∀ (feeds : List (String × List Entry)) (acc : Store × Nat) (r : NewsRecord),
      r ∈ ((feeds.foldl
          (fun acc feed =>
            let q := process_feed fetchArticle classifier now acc.1 feed.1 feed.2
            (q.1, acc.2 + q.2)) acc).1).news →
      r ∈ acc.1.news ∨ StatusInv r := by
  intro feeds
  induction feeds with
  | nil => intro acc r h; exact Or.inl h
  | cons fd fds ih =>
    intro acc r h
    rw [List.foldl_cons] at h
    rcases ih _ r h with h1 | h1
    · exact process_feed_mem_news fetchArticle classifier now acc.1 fd.1 fd.2 r h1
    · exact Or.inr h1

/-- C1: any record in the news table after a full pipeline run either was
there before the run or satisfies the taxonomy invariant: its status is
"published" exactly when its category_id is non-null, and otherwise it is
"pending" (the pending path persists a null category_id, the published
path a concrete one). -/
theorem pipeline_status_invariant
    (fetchArticle : String → Option String × Option String)
    (classifier : String → String) (now : String)
    (st : Store) (feeds : List (String × List Entry)) (r : NewsRecord)
    (h : r ∈ ((runPipeline fetchArticle classifier now st feeds).1).news) :
    r ∈ st.news ∨ StatusInv r := by
  unfold runPipeline at h
  exact runPipeline_fold_mem fetchArticle classifier now feeds (st, 0) r h

/-- C1 witness: a one-feed one-entry run on an empty store whose
classifier answers "tech" persists exactly demoRecord, which is published
with category 3 and satisfies the invariant. -/
theorem pipeline_status_invariant_witness :
    demoRecord ∈ ((runPipeline (fun _ => (some demoContent, none)) (fun _ => "tech")
        "2026-10-12T00:00:00+00:00" { news := [], sources := [], nextSourceId := 0 }
        [("BBC Arabic", [{ title := some "T", link := some "L" }])]).1).news ∧
    (demoRecord ∈ ({ news := [], sources := [], nextSourceId := 0 } : Store).news ∨
      StatusInv demoRecord) :=
  ⟨by decide,
   pipeline_status_invariant (fun _ => (some demoContent, none)) (fun _ => "tech")
     "2026-10-12T00:00:00+00:00" { news := [], sources := [], nextSourceId := 0 }
     [("BBC Arabic", [{ title := some "T", link := some "L" }])] demoRecord (by decide)⟩

end NewsScript
